import Mathlib

/-!
Verification of lunatic's `lua_function.hpp`, a compile-time marshalling shim
that lets C++ invoke named global Lua functions and retrieve typed results.

Embedding notes.
* The Lua runtime is the external collaborator; we model the slice of its C API
  that the header uses (`lua_push*`, `lua_to*`, `lua_getglobal`, `lua_pcall`,
  `lua_pop`, `lua_isfunction`) as operations on an explicit stack-machine state.
  The stack is a `List LuaValue` with the head as the TOP of the stack.
* Lua numbers (`lua_Number`, a C `double`) are modelled by their exact rational
  value (`Rat`).  C `float`/`double` host values are likewise modelled by the
  exact value they hold; the implicit C conversion `float → double` performed by
  `lua_pushnumber` is value-preserving (every IEEE-754 binary32 value is a
  binary64 value), and `double → float` applied to a value that originated from a
  `float` is value-preserving as well, so at the value level these conversions
  are identities.  Theorems about float/double round-trips carry the spec's
  exact-representability hypothesis even where the value-level model does not
  need it.
* `lua_Integer` is a 64-bit integer, modelled as `Int` (all integers pushed by
  this header come from a C `int` widened exactly, so no 64-bit wrap arises).
  The C narrowing conversion `int(lua_Integer)` in `pop_argument<int>` reduces
  the value modulo 2^32 into the `int` range (two's complement; defined
  behaviour since C++20 and universal practice before), modelled by `wrap32`.
* `assert(...)` failures abort the process; they are modelled as `Except.error`
  outcomes of kind `AbortKind`.  `pop_argument<std::string>` constructs a
  `std::string` from the `const char*` returned by `lua_tostring`; when that
  pointer is NULL (slot is absent, nil, boolean, ...) the construction is
  undefined behaviour, modelled as `Option.none`.
* Lua functions callable through `lua_pcall` are kept in a registry
  (`LuaState.funcs`) keyed by id, so that `LuaValue` keeps decidable equality;
  a callee either returns a list of result values or raises an error value.
-/

namespace Lunatic

/-- A Lua stack slot value.  Lua 5.3+ distinguishes integer-tagged and
float-tagged numbers; strings and booleans as in Lua; functions are references
into the state's function registry. -/
inductive LuaValue where
  | nil
  | boolean (b : Bool)
  | intVal (n : Int)
  | num (q : Rat)
  | str (s : String)
  | function (fid : Nat)
  deriving DecidableEq

/-- Semantics of a Lua callee: consumes the argument values (first argument
first) and either returns its result values (first result first) or raises an
error value. -/
def LuaFunc : Type := List LuaValue → Except LuaValue (List LuaValue)

/-- The `lua_State`: the value stack (head = top), the global namespace, and
the registry giving meaning to `LuaValue.function` ids. -/
structure LuaState where
  stack : List LuaValue
  globals : List (String × LuaValue)
  funcs : List (Nat × LuaFunc)

/-- Read an acceptable stack index: positive indices count from the bottom
(1 = bottom), negative from the top (-1 = top); out-of-range acceptable
indices read as a virtual `nil`, exactly as the `lua_to*` family treats them. -/
def lua_index (s : LuaState) (i : Int) : LuaValue :=
  if 0 < i then
    if i ≤ (s.stack.length : Int) then s.stack.getD (s.stack.length - i.toNat) .nil else .nil
  else if i < 0 then
    if -i ≤ (s.stack.length : Int) then s.stack.getD ((-i).toNat - 1) .nil else .nil
  else .nil

/-- `lua_pushboolean(L, b)`: pushes `b ≠ 0` as a boolean. -/
def lua_pushboolean (s : LuaState) (b : Int) : LuaState :=
  { s with stack := .boolean (b ≠ 0) :: s.stack }

/-- `lua_pushinteger(L, n)`: pushes an integer-tagged number.  The argument has
already been converted to `lua_Integer` at the C call boundary; conversion from
`int` is exact. -/
def lua_pushinteger (s : LuaState) (n : Int) : LuaState :=
  { s with stack := .intVal n :: s.stack }

/-- `lua_pushnumber(L, q)`: pushes a float-tagged number (value semantics,
see the file docstring). -/
def lua_pushnumber (s : LuaState) (q : Rat) : LuaState :=
  { s with stack := .num q :: s.stack }

/-- `lua_pushstring(L, z)`: pushes an owned copy of the string. -/
def lua_pushstring (s : LuaState) (z : String) : LuaState :=
  { s with stack := .str z :: s.stack }

/-- `lua_pop(L, n)`: removes the `n` topmost slots. -/
def lua_pop (s : LuaState) (n : Nat) : LuaState :=
  { s with stack := s.stack.drop n }

/-- `lua_getglobal(L, name)`: pushes the value of the global `name`
(`nil` when absent). -/
def lua_getglobal (s : LuaState) (name : String) : LuaState :=
  { s with stack := ((s.globals.lookup name).getD .nil) :: s.stack }

/-- `lua_isfunction(L, i)`. -/
def lua_isfunction (s : LuaState) (i : Int) : Bool :=
  match lua_index s i with
  | .function _ => true
  | _ => false

/-- Value-level semantics of `lua_toboolean`: only `nil` and `false` are falsy. -/
def val_toboolean : LuaValue → Bool
  | .nil => false
  | .boolean b => b
  | _ => true

/-- Value-level semantics of `lua_tointeger` (Lua 5.3+): integers convert
exactly; floats convert only when they carry an exact integer value in the
`lua_Integer` range; everything else (including an absent slot) yields 0.
String-to-number coercion of numeric strings is not modelled (no claim
depends on it). -/
def val_tointeger : LuaValue → Int
  | .intVal n => n
  | .num q => if q.den = 1 ∧ -(2 ^ 63) ≤ q.num ∧ q.num < 2 ^ 63 then q.num else 0
  | _ => 0

/-- Value-level semantics of `lua_tonumber`: numbers convert to their value;
everything else (including an absent slot) yields 0.  String-to-number coercion
of numeric strings is not modelled (no claim depends on it). -/
def val_tonumber : LuaValue → Rat
  | .intVal n => (n : Rat)
  | .num q => q
  | _ => 0

/-- Value-level semantics of `lua_tostring`: strings convert to themselves,
numbers to their textual form (Lua's exact `%.14g` formatting is not
claim-relevant and is stood in for by `toString`); for every other value —
including an absent slot — the C function returns a NULL pointer, modelled as
`none`. -/
def val_tostring : LuaValue → Option String
  | .str z => some z
  | .intVal n => some (toString n)
  | .num q => some (toString q)
  | _ => none

/-- `lua_toboolean(L, i)`. -/
def lua_toboolean (s : LuaState) (i : Int) : Bool :=
  val_toboolean (lua_index s i)

/-- `lua_tointeger(L, i)`. -/
def lua_tointeger (s : LuaState) (i : Int) : Int :=
  val_tointeger (lua_index s i)

/-- `lua_tonumber(L, i)`. -/
def lua_tonumber (s : LuaState) (i : Int) : Rat :=
  val_tonumber (lua_index s i)

/-- `lua_tostring(L, i)`; `none` models a NULL return. -/
def lua_tostring (s : LuaState) (i : Int) : Option String :=
  val_tostring (lua_index s i)

/-- `lua_pcall` adjusts the callee's results to exactly `nresults` slots:
extra results are discarded, missing ones are filled with `nil`. -/
def luaAdjust (rs : List LuaValue) (nresults : Nat) : List LuaValue :=
  rs.take nresults ++ List.replicate (nresults - rs.length) .nil

/-- `lua_pcall(L, nargs, nresults, 0)`: pops the function and `nargs` arguments
(the function sits `nargs` slots below the top), runs it, and on success pushes
its results adjusted to exactly `nresults` (first result deepest) and returns
status 0; on a runtime error (including calling a non-function) it instead
pushes a single error value and returns the nonzero status `LUA_ERRRUN = 2`. -/
def lua_pcall (s : LuaState) (nargs nresults : Nat) : LuaState × Int :=
  let rest := s.stack.drop (nargs + 1)
  match s.stack.getD nargs .nil with
  | .function fid =>
    match s.funcs.lookup fid with
    | some f =>
      match f (s.stack.take nargs).reverse with
      | .ok rs => ({ s with stack := (luaAdjust rs nresults).reverse ++ rest }, 0)
      | .error e => ({ s with stack := e :: rest }, 2)
    | none => ({ s with stack := .str "attempt to call a nil value" :: rest }, 2)
  | _ => ({ s with stack := .str "attempt to call a nil value" :: rest }, 2)

/-- A host-side value of one of the supported primitive types.  `hint` is a C
`int` (32-bit; theorems carry the range side-condition); `hfloat`/`hdouble`
carry the exact value held by the C `float`/`double` (see the file
docstring). -/
inductive HostVal where
  | hbool (b : Bool)
  | hint (n : Int)
  | hfloat (q : Rat)
  | hdouble (q : Rat)
  | hstr (z : String)
  deriving DecidableEq

/-- The type tag of a supported primitive host type (the `Ret`/argument
template parameters of the header). -/
inductive HostTy where
  | tbool
  | tint
  | tfloat
  | tdouble
  | tstr
  deriving DecidableEq

/-- The type tag of a host value. -/
def HostVal.ty : HostVal → HostTy
  | .hbool _ => .tbool
  | .hint _ => .tint
  | .hfloat _ => .tfloat
  | .hdouble _ => .tdouble
  | .hstr _ => .tstr

/-- `push_argument(L, arg)` — the five specializations of the single-value
encoder (lua_function.hpp lines 25-53). -/
def push_argument (s : LuaState) (v : HostVal) : LuaState :=
  match v with
  | .hbool b => lua_pushboolean s (if b then 1 else 0)
  | .hint n => lua_pushinteger s n
  | .hfloat q => lua_pushnumber s q
  | .hdouble q => lua_pushnumber s q
  | .hstr z => lua_pushstring s z

/-- The variadic `push_argument(L, first, args...)` overload (lines 18-23):
encode the first argument, then recursively encode the remainder.  The C++
overload requires at least one argument; the empty case is the identity so the
same definition also serves the zero-argument call path, which performs no
pushes. -/
def push_argument_list (s : LuaState) (args : List HostVal) : LuaState :=
  match args with
  | [] => s
  | first :: rest => push_argument_list (push_argument s first) rest

/-- The C narrowing conversion `int(n)` from a 64-bit integer: reduction
modulo 2^32 into `[-2^31, 2^31)`. -/
def wrap32 (n : Int) : Int :=
  (n + 2 ^ 31) % 2 ^ 32 - 2 ^ 31

/-- `pop_argument<Ret>(L, index)` — the five specializations of the
single-value decoder (lines 60-88), non-destructive reads.  `none` models the
undefined behaviour of constructing `std::string` from the NULL pointer
`lua_tostring` returns on a non-string/non-number slot. -/
def pop_argument (s : LuaState) (t : HostTy) (index : Int) : Option HostVal :=
  match t with
  | .tbool => some (.hbool (lua_toboolean s index))
  | .tint => some (.hint (wrap32 (lua_tointeger s index)))
  | .tfloat => some (.hfloat (lua_tonumber s index))
  | .tdouble => some (.hdouble (lua_tonumber s index))
  | .tstr => (lua_tostring s index).map .hstr

/-- `pop_arguments<Ret...>(L, index)` (lines 90-101): decode slot `index` as
the head type, then slots `index+1 ...` as the remaining types.  The C++
template requires at least one type; the `[]` case is vacuous. -/
def pop_arguments (s : LuaState) (tys : List HostTy) (index : Int) : Option (List HostVal) :=
  match tys with
  | [] => some []
  | [t] => (pop_argument s t index).map (fun v => [v])
  | t :: t2 :: rest => do
    let head ← pop_argument s t index
    let tail ← pop_arguments s (t2 :: rest) (index + 1)
    pure (head :: tail)

/-- The kind of fatal outcome: a failed `assert` (which aborts the process) or
the `std::string`-from-NULL undefined behaviour. -/
inductive AbortKind where
  | notCallable
  | callFailed
  | nullString
  deriving DecidableEq

/-- `detail::lua_function_base::get_global_function` (lines 119-123): push the
global and `assert(lua_isfunction(state, -1))`. -/
def get_global_function (s : LuaState) (name : String) : Except AbortKind LuaState :=
  let s1 := lua_getglobal s name
  if lua_isfunction s1 (-1) then .ok s1 else .error .notCallable

/-- `lua_function<Ret>::call_lua_func` (lines 162-169): protected call
requesting 1 result, `assert(call_ret == 0)`, decode the top slot, pop it,
return it. -/
def call_lua_func_single (t : HostTy) (s : LuaState) (num_args : Nat) :
    Except AbortKind (LuaState × HostVal) :=
  let p := lua_pcall s num_args 1
  if p.2 = 0 then
    match pop_argument p.1 t (-1) with
    | some ret => .ok (lua_pop p.1 1, ret)
    | none => .error .nullString
  else .error .callFailed

/-- `lua_function<Ret1, RetN...>::call_lua_func` (lines 205-213): protected
call requesting `N = sizeof...(RetN) + 1` results, `assert(call_ret == 0)`,
decode the tuple starting `N` slots below the new top, pop all `N`, return
it.  The template type list is modelled by `tys` (nonempty in the source). -/
def call_lua_func_multi (tys : List HostTy) (s : LuaState) (num_args : Nat) :
    Except AbortKind (LuaState × List HostVal) :=
  let num_ret_values := tys.length
  let p := lua_pcall s num_args num_ret_values
  if p.2 = 0 then
    match pop_arguments p.1 tys (-(num_ret_values : Int)) with
    | some ret => .ok (lua_pop p.1 num_ret_values, ret)
    | none => .error .nullString
  else .error .callFailed

/-- `lua_function<void>::call_lua_func` (lines 249-253): protected call
requesting 0 results, `assert(call_ret == 0)`. -/
def call_lua_func_void (s : LuaState) (num_args : Nat) : Except AbortKind LuaState :=
  let p := lua_pcall s num_args 0
  if p.2 = 0 then .ok p.1 else .error .callFailed

/-- `lua_function<Ret>::operator()()` (lines 138-142). -/
def single_op0 (t : HostTy) (s : LuaState) (name : String) :
    Except AbortKind (LuaState × HostVal) :=
  (get_global_function s name).bind fun s1 => call_lua_func_single t s1 0

/-- `lua_function<Ret>::operator()(T arg)` (lines 144-150). -/
def single_op1 (t : HostTy) (s : LuaState) (name : String) (arg : HostVal) :
    Except AbortKind (LuaState × HostVal) :=
  (get_global_function s name).bind fun s1 =>
    call_lua_func_single t (push_argument s1 arg) 1

/-- `lua_function<Ret>::operator()(T first, Args&&... args)` (lines 152-159). -/
def single_opN (t : HostTy) (s : LuaState) (name : String)
    (first : HostVal) (args : List HostVal) : Except AbortKind (LuaState × HostVal) :=
  (get_global_function s name).bind fun s1 =>
    call_lua_func_single t (push_argument_list (push_argument s1 first) args) (args.length + 1)

/-- `lua_function<Ret1, RetN...>::operator()()` (lines 181-185). -/
def multi_op0 (tys : List HostTy) (s : LuaState) (name : String) :
    Except AbortKind (LuaState × List HostVal) :=
  (get_global_function s name).bind fun s1 => call_lua_func_multi tys s1 0

/-- `lua_function<Ret1, RetN...>::operator()(T arg)` (lines 187-193). -/
def multi_op1 (tys : List HostTy) (s : LuaState) (name : String) (arg : HostVal) :
    Except AbortKind (LuaState × List HostVal) :=
  (get_global_function s name).bind fun s1 =>
    call_lua_func_multi tys (push_argument s1 arg) 1

/-- `lua_function<Ret1, RetN...>::operator()(T first, Args&&... args)`
(lines 195-202). -/
def multi_opN (tys : List HostTy) (s : LuaState) (name : String)
    (first : HostVal) (args : List HostVal) : Except AbortKind (LuaState × List HostVal) :=
  (get_global_function s name).bind fun s1 =>
    call_lua_func_multi tys (push_argument_list (push_argument s1 first) args) (args.length + 1)

/-- `lua_function<void>::operator()()` (lines 225-229). -/
def void_op0 (s : LuaState) (name : String) : Except AbortKind LuaState :=
  (get_global_function s name).bind fun s1 => call_lua_func_void s1 0

/-- `lua_function<void>::operator()(T arg)` (lines 231-237). -/
def void_op1 (s : LuaState) (name : String) (arg : HostVal) : Except AbortKind LuaState :=
  (get_global_function s name).bind fun s1 =>
    call_lua_func_void (push_argument s1 arg) 1

/-- `lua_function<void>::operator()(T first, Args&&... args)` (lines 239-246). -/
def void_opN (s : LuaState) (name : String) (first : HostVal) (args : List HostVal) :
    Except AbortKind LuaState :=
  (get_global_function s name).bind fun s1 =>
    call_lua_func_void (push_argument_list (push_argument s1 first) args) (args.length + 1)

/-- The Lua value that `push_argument` leaves on top of the stack for a given
host value. -/
def encodeVal : HostVal → LuaValue
  | .hbool b => .boolean b
  | .hint n => .intVal n
  | .hfloat q => .num q
  | .hdouble q => .num q
  | .hstr z => .str z

/-- The host value that `pop_argument` at type `t` extracts from a slot
holding `v` (`none` = NULL-pointer undefined behaviour for strings). -/
def decode_slot (t : HostTy) (v : LuaValue) : Option HostVal :=
  match t with
  | .tbool => some (.hbool (val_toboolean v))
  | .tint => some (.hint (wrap32 (val_tointeger v)))
  | .tfloat => some (.hfloat (val_tonumber v))
  | .tdouble => some (.hdouble (val_tonumber v))
  | .tstr => (val_tostring v).map .hstr

/-- Element-wise decoding of a list of result slots (first slot first) at a
list of declared types: the formal counterpart of "the N-th declared return
type maps to the N-th stack slot from the start of the result range". -/
def decodeSlots : List HostTy → List LuaValue → Option (List HostVal)
  | [], _ => some []
  | t :: tys, vals => do
    let head ← decode_slot t (vals.headD .nil)
    let tail ← decodeSlots tys vals.tail
    pure (head :: tail)

/-- The value range of the 32-bit C `int`. -/
def int32Range (n : Int) : Prop :=
  -(2 ^ 31) ≤ n ∧ n < 2 ^ 31

/-- Exact representability in the runtime's native numeric representation
(IEEE-754 binary64): a dyadic rational with at most 53 significant bits.
(Scaling by positive powers of two is covered by enlarging `e` on the
numerator side, e.g. `m * 2^k = (m * 2^k) / 2^0`.) -/
def reprDouble (q : Rat) : Prop :=
  ∃ m : Int, ∃ e : Nat, q = (m : Rat) / 2 ^ e ∧ m.natAbs ≤ 2 ^ 53

/-- Well-formedness of a host value: a C `int` holds a value in the 32-bit
range; a float/double value satisfies the spec's exact-representability
condition (value-level identities make it unnecessary for the proofs, but the
claims are stated under it). -/
def hostWF : HostVal → Prop
  | .hbool _ => True
  | .hint n => int32Range n
  | .hfloat q => reprDouble q
  | .hdouble q => reprDouble q
  | .hstr _ => True

/-- Modelled from the spec (§4.3, variadic overload resolution): the uniform
call operation for the single-result shape — resolve the name, forward all `K`
arguments in order to the encoder chain, then perform the call step with
argument count `K`.  The three C++ overloads are claimed to be this one
operation at `K = 0`, `K = 1`, `K > 1`. -/
def single_op_uniform (t : HostTy) (s : LuaState) (name : String) (args : List HostVal) :
    Except AbortKind (LuaState × HostVal) :=
  (get_global_function s name).bind fun s1 =>
    call_lua_func_single t (push_argument_list s1 args) args.length

/-- Modelled from the spec (§4.3): the uniform call operation for the
multi-result shape. -/
def multi_op_uniform (tys : List HostTy) (s : LuaState) (name : String) (args : List HostVal) :
    Except AbortKind (LuaState × List HostVal) :=
  (get_global_function s name).bind fun s1 =>
    call_lua_func_multi tys (push_argument_list s1 args) args.length

/-- Modelled from the spec (§4.3): the uniform call operation for the
no-result shape. -/
def void_op_uniform (s : LuaState) (name : String) (args : List HostVal) :
    Except AbortKind LuaState :=
  (get_global_function s name).bind fun s1 =>
    call_lua_func_void (push_argument_list s1 args) args.length

/-- Test fixture: a callee that echoes its arguments as its results. -/
def echoFn : LuaFunc := fun xs => .ok xs

/-- Test fixture: a callee with no results. -/
def noopFn : LuaFunc := fun _ => .ok []

/-- Test fixture: a callee that raises. -/
def failFn : LuaFunc := fun _ => .error (.str "boom")

/-- Test fixture: a state whose globals bind `echo`, `noop` and `boom` to the
fixture callees and `bad` to a non-callable value. -/
def testState : LuaState :=
  { stack := []
  , globals := [("echo", .function 0), ("noop", .function 1),
                ("boom", .function 2), ("bad", .str "not a function")]
  , funcs := [(0, echoFn), (1, noopFn), (2, failFn)] }

theorem push_argument_eq (s : LuaState) (v : HostVal) :
    push_argument s v = { s with stack := encodeVal v :: s.stack } := by
  cases v with
  | hbool b => cases b <;> rfl
  | hint n => rfl
  | hfloat q => rfl
  | hdouble q => rfl
  | hstr z => rfl

theorem push_argument_list_eq (s : LuaState) (args : List HostVal) :
    push_argument_list s args = { s with stack := (args.map encodeVal).reverse ++ s.stack } := by
  induction args generalizing s with
  | nil => simp [push_argument_list]
  | cons a rest ih =>
      rw [push_argument_list, push_argument_eq, ih]
      simp

theorem pop_argument_eq (s : LuaState) (t : HostTy) (i : Int) :
    pop_argument s t i = decode_slot t (lua_index s i) := by
  cases t <;> rfl

theorem wrap32_int32 (n : Int) (h : int32Range n) : wrap32 n = n := by
  unfold wrap32
  unfold int32Range at h
  omega

theorem decode_encode (v : HostVal) (h : hostWF v) :
    decode_slot v.ty (encodeVal v) = some v := by
  cases v with
  | hbool b => cases b <;> rfl
  | hint n =>
      simp only [HostVal.ty, encodeVal, decode_slot, val_tointeger]
      rw [wrap32_int32 n h]
  | hfloat q => rfl
  | hdouble q => rfl
  | hstr z => rfl

theorem lua_index_neg (L : List LuaValue) (g : List (String × LuaValue))
    (fs : List (Nat × LuaFunc)) (j : Nat) (h1 : 1 ≤ j) (h2 : j ≤ L.length) :
    lua_index ⟨L, g, fs⟩ (-(j : Int)) = L.getD (j - 1) .nil := by
  unfold lua_index
  have hnotpos : ¬ (0 < -(j : Int)) := by omega
  have hneg : -(j : Int) < 0 := by omega
  have hle : -(-(j : Int)) ≤ ((L.length : Int)) := by
    simp only [neg_neg]
    exact_mod_cast h2
  simp only [hnotpos, if_false, hneg, if_true, hle, neg_neg, Int.toNat_natCast]
  rw [if_pos (by exact_mod_cast h2)]

theorem luaAdjust_length (rs : List LuaValue) (n : Nat) :
    (luaAdjust rs n).length = n := by
  simp [luaAdjust]
  omega

theorem pop_arguments_rev (tys : List HostTy) (vals rest : List LuaValue)
    (g : List (String × LuaValue)) (fs : List (Nat × LuaFunc))
    (h : tys.length = vals.length) :
    pop_arguments ⟨vals.reverse ++ rest, g, fs⟩ tys (-(vals.length : Int))
      = decodeSlots tys vals := by
  induction tys generalizing vals rest with
  | nil =>
      have hv : vals = [] := by
        cases vals with
        | nil => rfl
        | cons v vs => simp at h
      subst hv
      rfl
  | cons t tys ih =>
      cases vals with
      | nil => simp at h
      | cons v vs =>
          have hlen : tys.length = vs.length := by simpa using h
          have hidx : lua_index ⟨(v :: vs).reverse ++ rest, g, fs⟩ (-(((v :: vs).length : Nat) : Int))
              = v := by
            rw [lua_index_neg]
            · rw [List.reverse_cons, List.append_assoc, List.getD_append_right]
              · simp
              · simp
            · simp
            · simp
          cases tys with
          | nil =>
              have hv : vs = [] := by
                cases vs with
                | nil => rfl
                | cons w ws => simp at hlen
              subst hv
              simp only [pop_arguments, pop_argument_eq]
              rw [hidx]
              simp only [decodeSlots, List.headD, List.tail]
              cases decode_slot t v <;> rfl
          | cons t2 ts =>
              have hstack : (v :: vs).reverse ++ rest = vs.reverse ++ (v :: rest) := by
                simp
              have hstep : (-(((v :: vs).length : Nat) : Int)) + 1 = -((vs.length : Nat) : Int) := by
                simp only [List.length_cons]
                push_cast
                ring
              simp only [pop_arguments, pop_argument_eq]
              rw [hidx, hstep, hstack, ih vs (v :: rest) hlen]
              simp only [decodeSlots, List.headD, List.tail]

theorem lua_pcall_push (s0 : LuaState) (fid : Nat) (f : LuaFunc)
    (argvals rs : List LuaValue) (nres : Nat)
    (hf : s0.funcs.lookup fid = some f) (hcall : f argvals = .ok rs) :
    lua_pcall { s0 with stack := argvals.reverse ++ .function fid :: s0.stack }
        argvals.length nres
      = ({ s0 with stack := (luaAdjust rs nres).reverse ++ s0.stack }, 0) := by
  unfold lua_pcall
  have hget : (argvals.reverse ++ LuaValue.function fid :: s0.stack).getD argvals.length .nil
      = .function fid := by
    rw [List.getD_append_right]
    · simp [List.length_reverse]
    · simp [List.length_reverse]
  have htake : ((argvals.reverse ++ LuaValue.function fid :: s0.stack).take argvals.length).reverse
      = argvals := by
    rw [List.take_left' (by simp)]
    simp
  have hdrop : (argvals.reverse ++ LuaValue.function fid :: s0.stack).drop (argvals.length + 1)
      = s0.stack := by
    have : argvals.reverse ++ LuaValue.function fid :: s0.stack
        = (argvals.reverse ++ [LuaValue.function fid]) ++ s0.stack := by simp
    rw [this, List.drop_left' (by simp)]
  simp only [hget, hf, htake, hcall, hdrop]

theorem lua_pcall_zero_stack (s : LuaState) (K N : Nat)
    (h : (lua_pcall s K N).2 = 0) :
    ∃ rs, (lua_pcall s K N).1.stack
      = (luaAdjust rs N).reverse ++ s.stack.drop (K + 1) := by
  unfold lua_pcall at h ⊢
  rcases hv : s.stack.getD K .nil with _ | b | n | q | z | fid <;>
    simp only [hv] at h ⊢
  case function =>
    rcases hl : s.funcs.lookup fid with _ | f <;> simp only [hl] at h ⊢
    · simp at h
    · rcases hc : f (s.stack.take K).reverse with e | rs <;> simp only [hc] at h ⊢
      · simp at h
      · exact ⟨rs, rfl⟩
  all_goals simp at h

theorem lua_pcall_drop (s : LuaState) (K N : Nat)
    (h : (lua_pcall s K N).2 = 0) :
    (lua_pcall s K N).1.stack.drop N = s.stack.drop (K + 1) := by
  obtain ⟨rs, hrs⟩ := lua_pcall_zero_stack s K N h
  rw [hrs, List.drop_left' (by simp [luaAdjust_length])]

theorem lua_index_top (L : List LuaValue) (g : List (String × LuaValue))
    (fs : List (Nat × LuaFunc)) (v : LuaValue) :
    lua_index ⟨v :: L, g, fs⟩ (-1) = v := by
  unfold lua_index
  norm_num

theorem bind_ok_elim {α β : Type} {m : Except AbortKind α} {g : α → Except AbortKind β}
    {b : β} (h : m.bind g = .ok b) : ∃ a, m = .ok a ∧ g a = .ok b := by
  cases m with
  | error e => simp [Except.bind] at h
  | ok a => exact ⟨a, rfl, h⟩

theorem get_global_function_ok {s s1 : LuaState} {name : String}
    (h : get_global_function s name = .ok s1) : s1 = lua_getglobal s name := by
  simp only [get_global_function] at h
  by_cases hf : lua_isfunction (lua_getglobal s name) (-1)
  · rw [if_pos hf] at h
    injection h with h
    exact h.symm
  · rw [if_neg hf] at h
    cases h

theorem get_global_push (s : LuaState) (name : String) (fid : Nat)
    (hg : s.globals.lookup name = some (.function fid)) :
    get_global_function s name = .ok { s with stack := .function fid :: s.stack } := by
  simp only [get_global_function, lua_getglobal, hg, Option.getD]
  rw [if_pos]
  unfold lua_isfunction
  rw [lua_index_top]

theorem drop_push_shape (pushed : List LuaValue) (gv : LuaValue) (L : List LuaValue)
    (K : Nat) (h : pushed.length = K) : (pushed ++ gv :: L).drop (K + 1) = L := by
  have hsplit : pushed ++ gv :: L = (pushed ++ [gv]) ++ L := by simp
  rw [hsplit, List.drop_left' (by simp [h])]

theorem push_shape_opN (s1 : LuaState) (a : HostVal) (as : List HostVal) :
    push_argument_list (push_argument s1 a) as
      = { s1 with stack := ((a :: as).map encodeVal).reverse ++ s1.stack } := by
  rw [push_argument_eq, push_argument_list_eq]
  simp

theorem decodeSlots_length (tys : List HostTy) (vals : List LuaValue) (vs : List HostVal)
    (h : decodeSlots tys vals = some vs) : vs.length = tys.length := by
  induction tys generalizing vals vs with
  | nil =>
      simp only [decodeSlots] at h
      injection h with h
      subst h
      rfl
  | cons t tys ih =>
      simp only [decodeSlots, Option.bind_eq_bind, Option.bind_eq_some] at h
      obtain ⟨hd, hhd, tl, htl, hout⟩ := h
      injection hout with hout
      subst hout
      simp [ih _ _ htl]

theorem luaAdjust_eq_self (rs : List LuaValue) (n : Nat) (h : rs.length = n) :
    luaAdjust rs n = rs := by
  unfold luaAdjust
  rw [← h, List.take_length]
  simp

theorem call_lua_func_multi_ok (tys : List HostTy) (s0 : LuaState) (fid : Nat)
    (f : LuaFunc) (argvals rs : List LuaValue) (vs : List HostVal)
    (hf : s0.funcs.lookup fid = some f) (hcall : f argvals = .ok rs)
    (hdec : decodeSlots tys (luaAdjust rs tys.length) = some vs) :
    call_lua_func_multi tys { s0 with stack := argvals.reverse ++ .function fid :: s0.stack }
        argvals.length = .ok (s0, vs) := by
  simp only [call_lua_func_multi]
  rw [lua_pcall_push s0 fid f argvals rs tys.length hf hcall]
  have hrev := pop_arguments_rev tys (luaAdjust rs tys.length) s0.stack s0.globals s0.funcs
    (by rw [luaAdjust_length])
  rw [luaAdjust_length] at hrev
  have hdrop : ((luaAdjust rs tys.length).reverse ++ s0.stack).drop tys.length = s0.stack :=
    List.drop_left' (by simp [luaAdjust_length])
  simp [hrev, hdec, lua_pop, hdrop]

theorem call_lua_func_single_ok (t : HostTy) (s0 : LuaState) (fid : Nat)
    (f : LuaFunc) (argvals rs : List LuaValue) (v : HostVal)
    (hf : s0.funcs.lookup fid = some f) (hcall : f argvals = .ok rs)
    (hdec : decode_slot t ((luaAdjust rs 1).headD .nil) = some v) :
    call_lua_func_single t { s0 with stack := argvals.reverse ++ .function fid :: s0.stack }
        argvals.length = .ok (s0, v) := by
  unfold call_lua_func_single
  rw [lua_pcall_push s0 fid f argvals rs 1 hf hcall]
  have hlen : (luaAdjust rs 1).length = 1 := luaAdjust_length rs 1
  rcases hadj : luaAdjust rs 1 with _ | ⟨w, ws⟩
  · rw [hadj] at hlen; simp at hlen
  · have hws : ws = [] := by
      rw [hadj] at hlen
      simpa using hlen
    subst hws
    rw [hadj] at hdec
    simp only [List.headD] at hdec
    simp [pop_argument_eq, lua_index_top, hdec, lua_pop]

theorem call_lua_func_void_ok (s0 : LuaState) (fid : Nat) (f : LuaFunc)
    (argvals rs : List LuaValue)
    (hf : s0.funcs.lookup fid = some f) (hcall : f argvals = .ok rs) :
    call_lua_func_void { s0 with stack := argvals.reverse ++ .function fid :: s0.stack }
        argvals.length = .ok s0 := by
  unfold call_lua_func_void
  rw [lua_pcall_push s0 fid f argvals rs 0 hf hcall]
  simp [luaAdjust]

theorem call_single_stack (t : HostTy) (s s2 : LuaState) (v : HostVal) (K : Nat)
    (h : call_lua_func_single t s K = .ok (s2, v)) :
    s2.stack = s.stack.drop (K + 1) := by
  unfold call_lua_func_single at h
  by_cases h0 : (lua_pcall s K 1).2 = 0
  · rw [if_pos h0] at h
    rcases hp : pop_argument (lua_pcall s K 1).1 t (-1) with _ | r
    · rw [hp] at h; cases h
    · rw [hp] at h
      injection h with h
      have hs2 : s2 = lua_pop (lua_pcall s K 1).1 1 := (congrArg Prod.fst h).symm
      rw [hs2]
      simp only [lua_pop]
      exact lua_pcall_drop s K 1 h0
  · rw [if_neg h0] at h
    cases h

theorem call_multi_stack (tys : List HostTy) (s s2 : LuaState) (vs : List HostVal) (K : Nat)
    (h : call_lua_func_multi tys s K = .ok (s2, vs)) :
    s2.stack = s.stack.drop (K + 1) := by
  unfold call_lua_func_multi at h
  by_cases h0 : (lua_pcall s K tys.length).2 = 0
  · rw [if_pos h0] at h
    rcases hp : pop_arguments (lua_pcall s K tys.length).1 tys (-(tys.length : Int))
        with _ | r
    · rw [hp] at h; cases h
    · rw [hp] at h
      injection h with h
      have hs2 : s2 = lua_pop (lua_pcall s K tys.length).1 tys.length :=
        (congrArg Prod.fst h).symm
      rw [hs2]
      simp only [lua_pop]
      exact lua_pcall_drop s K tys.length h0
  · rw [if_neg h0] at h
    cases h

theorem call_void_stack (s s2 : LuaState) (K : Nat)
    (h : call_lua_func_void s K = .ok s2) :
    s2.stack = s.stack.drop (K + 1) := by
  unfold call_lua_func_void at h
  by_cases h0 : (lua_pcall s K 0).2 = 0
  · rw [if_pos h0] at h
    injection h with h
    rw [← h]
    have := lua_pcall_drop s K 0 h0
    simpa using this
  · rw [if_neg h0] at h
    cases h

/-- C4: for every supported primitive type, decoding the stack slot produced by
encoding a value yields the value back exactly for boolean, integer and string;
for float and double the round-trip is exact under the exact-representability
condition (which the value-level model of IEEE numbers carries as the
`hostWF` hypothesis, together with the 32-bit range of a C `int`). -/
theorem encode_decode_roundtrip (s : LuaState) (v : HostVal) (h : hostWF v) :
    pop_argument (push_argument s v) v.ty (-1) = some v := by
  rw [push_argument_eq, pop_argument_eq, lua_index_top, decode_encode v h]

/-- Witness for C4 at each of the five primitive types. -/
theorem encode_decode_roundtrip_witness :
    pop_argument (push_argument testState (.hbool true)) .tbool (-1) = some (.hbool true)
  ∧ pop_argument (push_argument testState (.hint 41)) .tint (-1) = some (.hint 41)
  ∧ pop_argument (push_argument testState (.hfloat (3 / 2))) .tfloat (-1)
      = some (.hfloat (3 / 2))
  ∧ pop_argument (push_argument testState (.hdouble (7 / 4))) .tdouble (-1)
      = some (.hdouble (7 / 4))
  ∧ pop_argument (push_argument testState (.hstr "lua")) .tstr (-1) = some (.hstr "lua") :=
  ⟨encode_decode_roundtrip testState (.hbool true) trivial,
   encode_decode_roundtrip testState (.hint 41) (by constructor <;> norm_num),
   encode_decode_roundtrip testState (.hfloat (3 / 2)) ⟨3, 1, by norm_num, by norm_num⟩,
   encode_decode_roundtrip testState (.hdouble (7 / 4)) ⟨7, 2, by norm_num, by norm_num⟩,
   encode_decode_roundtrip testState (.hstr "lua") trivial⟩

/-- C6: the zero-argument, single-argument and multi-argument overloads of the
call operator are the same operation at `K = 0`, `K = 1`, `K > 1`: for every
result-signature shape and every effective argument sequence they equal the
uniform spec-side operation (same name resolution, same pushes in the same
order, same argument count to the protected call). -/
theorem call_operator_forms_agree (t : HostTy) (tys : List HostTy) (s : LuaState)
    (name : String) (a : HostVal) (as : List HostVal) :
    (single_op0 t s name = single_op_uniform t s name []
      ∧ single_op1 t s name a = single_op_uniform t s name [a]
      ∧ single_opN t s name a as = single_op_uniform t s name (a :: as))
  ∧ (multi_op0 tys s name = multi_op_uniform tys s name []
      ∧ multi_op1 tys s name a = multi_op_uniform tys s name [a]
      ∧ multi_opN tys s name a as = multi_op_uniform tys s name (a :: as))
  ∧ (void_op0 s name = void_op_uniform s name []
      ∧ void_op1 s name a = void_op_uniform s name [a]
      ∧ void_opN s name a as = void_op_uniform s name (a :: as)) :=
  ⟨⟨rfl, rfl, rfl⟩, ⟨rfl, rfl, rfl⟩, ⟨rfl, rfl, rfl⟩⟩

/-- C7: if the bound name resolves to a callable, the assert passes and the
resolved callee is left on the stack top; if it does not resolve to a callable
value, the fatal assertion fires (modelled as the `notCallable` abort). -/
theorem name_resolution_assertion (s : LuaState) (name : String) :
    ((∃ fid, s.globals.lookup name = some (.function fid)) →
        get_global_function s name
          = .ok { s with stack := ((s.globals.lookup name).getD .nil) :: s.stack })
  ∧ ((∀ fid, s.globals.lookup name ≠ some (.function fid)) →
        get_global_function s name = .error .notCallable) := by
  constructor
  · rintro ⟨fid, hfid⟩
    rw [get_global_push s name fid hfid, hfid]
    rfl
  · intro hall
    have hnf : lua_isfunction (lua_getglobal s name) (-1) = false := by
      simp only [lua_isfunction, lua_getglobal, lua_index_top]
      rcases hl : s.globals.lookup name with _ | w
      · rfl
      · cases w with
        | function fid => exact absurd hl (hall fid)
        | nil => rfl
        | boolean b => rfl
        | intVal n => rfl
        | num q => rfl
        | str z => rfl
    simp only [get_global_function, hnf]
    rfl

/-- Witness for C7: `echo` resolves to a callable and is pushed; `bad` resolves
to a non-callable so resolution aborts. -/
theorem name_resolution_assertion_witness :
    get_global_function testState "echo"
      = .ok { testState with
          stack := ((testState.globals.lookup "echo").getD .nil) :: testState.stack }
  ∧ get_global_function testState "bad" = .error .notCallable :=
  ⟨(name_resolution_assertion testState "echo").1 ⟨0, rfl⟩,
   (name_resolution_assertion testState "bad").2 (fun fid h => by cases h)⟩

/-- C9 counterexample: decoding a missing/absent stack slot as a string does
NOT yield the empty host string — `lua_tostring` returns a NULL pointer there
and constructing `std::string` from it is undefined behaviour (modelled as
`none`), so the claim fails for the string type. -/
theorem missing_slot_string_decode_cex :
    pop_argument ⟨[], [], []⟩ .tstr 1 ≠ some (.hstr "")
  ∧ pop_argument ⟨[], [], []⟩ .tstr 1 = none := by
  refine ⟨?_, rfl⟩
  intro h
  cases h

/-- C9 amended: decoding a missing/absent slot (one that reads as `nil`)
follows the runtime's coercion rules and yields the zero-equivalent host value
for boolean, integer, float and double without failing; for string, however,
`lua_tostring` returns a NULL pointer and the decode has no defined host value
(undefined behaviour, modelled as `none`) rather than the empty string. -/
theorem missing_slot_decode_amended (s : LuaState) (i : Int)
    (h : lua_index s i = .nil) :
    pop_argument s .tbool i = some (.hbool false)
  ∧ pop_argument s .tint i = some (.hint 0)
  ∧ pop_argument s .tfloat i = some (.hfloat 0)
  ∧ pop_argument s .tdouble i = some (.hdouble 0)
  ∧ pop_argument s .tstr i = none := by
  refine ⟨?_, ?_, ?_, ?_, ?_⟩ <;> rw [pop_argument_eq, h] <;> rfl

/-- Witness for C9 (amended) on an empty stack. -/
theorem missing_slot_decode_amended_witness :
    pop_argument ⟨[], [], []⟩ .tbool 1 = some (.hbool false)
  ∧ pop_argument ⟨[], [], []⟩ .tint 1 = some (.hint 0)
  ∧ pop_argument ⟨[], [], []⟩ .tfloat 1 = some (.hfloat 0)
  ∧ pop_argument ⟨[], [], []⟩ .tdouble 1 = some (.hdouble 0)
  ∧ pop_argument ⟨[], [], []⟩ .tstr 1 = none :=
  missing_slot_decode_amended ⟨[], [], []⟩ 1 rfl

/-- C10: decoding an integer slot narrows `lua_Integer` to the host `int` by
conversion — exact for slot values in the 32-bit `int` range, and reduction
modulo 2^32 (into the `int` range) for values outside it; the decode never
fails. -/
theorem int_narrowing_wrap (s : LuaState) (i : Int) (n : Int)
    (h : lua_index s i = .intVal n) :
    pop_argument s .tint i = some (.hint (wrap32 n))
  ∧ (int32Range n → pop_argument s .tint i = some (.hint n))
  ∧ int32Range (wrap32 n)
  ∧ (wrap32 n - n) % 2 ^ 32 = 0 := by
  have h1 : pop_argument s .tint i = some (.hint (wrap32 n)) := by
    rw [pop_argument_eq, h]
    rfl
  refine ⟨h1, ?_, ?_, ?_⟩
  · intro hr
    rw [h1, wrap32_int32 n hr]
  · unfold int32Range wrap32
    omega
  · unfold wrap32
    omega

/-- Witness for C10: an in-range slot decodes exactly; a slot holding
`2^32 + 7` (outside the `int` range) decodes to its wrap, which is `7`. -/
theorem int_narrowing_wrap_witness :
    pop_argument ⟨[.intVal (2 ^ 32 + 7)], [], []⟩ .tint (-1)
      = some (.hint (wrap32 (2 ^ 32 + 7)))
  ∧ pop_argument ⟨[.intVal 41], [], []⟩ .tint (-1) = some (.hint 41)
  ∧ wrap32 (2 ^ 32 + 7) = 7 :=
  ⟨(int_narrowing_wrap ⟨[.intVal (2 ^ 32 + 7)], [], []⟩ (-1) (2 ^ 32 + 7) (by decide)).1,
   (int_narrowing_wrap ⟨[.intVal 41], [], []⟩ (-1) 41 (by decide)).2.1
     (by constructor <;> norm_num),
   by decide⟩

theorem op_stack_core (s : LuaState) (name : String) (s1 : LuaState)
    (hs1 : get_global_function s name = .ok s1) (args : List HostVal) :
    (push_argument_list s1 args).stack.drop (args.length + 1) = s.stack := by
  obtain rfl := get_global_function_ok hs1
  rw [push_argument_list_eq]
  exact drop_push_shape _ _ _ _ (by simp)

/-- C1: for a declared multi-result signature with `N ≥ 2` types, a successful
invocation of any bound-call overload requests exactly `N` results (the
callee's results are adjusted to exactly `N` slots), decodes them starting `N`
slots below the new top so that the `j`-th declared type is paired with the
`j`-th returned value (first returned value = first tuple element, expressed by
`decodeSlots` over the adjusted result list), pops all `N`, and returns the
decoded tuple with the stack restored. -/
theorem multi_result_call_protocol (tys : List HostTy) (s : LuaState) (name : String)
    (fid : Nat) (f : LuaFunc)
    (hN : 2 ≤ tys.length)
    (hg : s.globals.lookup name = some (.function fid))
    (hf : s.funcs.lookup fid = some f) :
    (∀ rs vs, f [] = .ok rs →
        decodeSlots tys (luaAdjust rs tys.length) = some vs →
        multi_op0 tys s name = .ok (s, vs) ∧ vs.length = tys.length)
  ∧ (∀ a rs vs, f [encodeVal a] = .ok rs →
        decodeSlots tys (luaAdjust rs tys.length) = some vs →
        multi_op1 tys s name a = .ok (s, vs) ∧ vs.length = tys.length)
  ∧ (∀ a as rs vs, f ((a :: as).map encodeVal) = .ok rs →
        decodeSlots tys (luaAdjust rs tys.length) = some vs →
        multi_opN tys s name a as = .ok (s, vs) ∧ vs.length = tys.length) := by
  refine ⟨?_, ?_, ?_⟩
  · intro rs vs hcall hdec
    refine ⟨?_, decodeSlots_length _ _ _ hdec⟩
    simp only [multi_op0]
    rw [get_global_push s name fid hg]
    exact call_lua_func_multi_ok tys s fid f [] rs vs hf hcall hdec
  · intro a rs vs hcall hdec
    refine ⟨?_, decodeSlots_length _ _ _ hdec⟩
    simp only [multi_op1]
    rw [get_global_push s name fid hg]
    show call_lua_func_multi tys
        (push_argument { s with stack := .function fid :: s.stack } a) 1 = .ok (s, vs)
    rw [push_argument_eq]
    exact call_lua_func_multi_ok tys s fid f [encodeVal a] rs vs hf hcall hdec
  · intro a as rs vs hcall hdec
    refine ⟨?_, decodeSlots_length _ _ _ hdec⟩
    simp only [multi_opN]
    rw [get_global_push s name fid hg]
    show call_lua_func_multi tys
        (push_argument_list (push_argument { s with stack := .function fid :: s.stack } a) as)
        (as.length + 1) = .ok (s, vs)
    rw [push_shape_opN]
    have hmain := call_lua_func_multi_ok tys s fid f ((a :: as).map encodeVal) rs vs hf hcall hdec
    simpa using hmain

/-- Witness for C1: a two-result call against the echo callee returns the pair
in declared order with the stack restored. -/
theorem multi_result_call_protocol_witness :
    multi_opN [.tint, .tint] testState "echo" (.hint 7) [.hint 2]
      = .ok (testState, [.hint 7, .hint 2])
  ∧ ([HostVal.hint 7, HostVal.hint 2]).length = ([HostTy.tint, HostTy.tint]).length :=
  (multi_result_call_protocol [.tint, .tint] testState "echo" 0 echoFn (by decide)
      rfl rfl).2.2 (.hint 7) [.hint 2] [.intVal 7, .intVal 2] [.hint 7, .hint 2]
    rfl (by decide)

/-- C2: the encoder pushes an argument list left-to-right (first argument
pushed first, hence deepest in the pushed range), and invoking a bound function
that echoes its arguments as its results with `(a, b, c)` returns `(a, b, c)`
unchanged. -/
theorem argument_order_echo (s : LuaState) (name : String) (fid : Nat) (f : LuaFunc)
    (a b c : HostVal)
    (hg : s.globals.lookup name = some (.function fid))
    (hf : s.funcs.lookup fid = some f)
    (hecho : ∀ xs, f xs = .ok xs)
    (hwa : hostWF a) (hwb : hostWF b) (hwc : hostWF c) :
    (∀ s0 : LuaState, (push_argument_list s0 [a, b, c]).stack
        = encodeVal c :: encodeVal b :: encodeVal a :: s0.stack)
  ∧ multi_opN [a.ty, b.ty, c.ty] s name a [b, c] = .ok (s, [a, b, c]) := by
  constructor
  · intro s0
    rw [push_argument_list_eq]
    simp
  · have hdec : decodeSlots [a.ty, b.ty, c.ty]
        (luaAdjust [encodeVal a, encodeVal b, encodeVal c] 3) = some [a, b, c] := by
      rw [luaAdjust_eq_self [encodeVal a, encodeVal b, encodeVal c] 3 rfl]
      simp only [decodeSlots, List.headD, List.tail, decode_encode a hwa,
        decode_encode b hwb, decode_encode c hwc]
      rfl
    simp only [multi_opN]
    rw [get_global_push s name fid hg]
    show call_lua_func_multi [a.ty, b.ty, c.ty]
        (push_argument_list (push_argument { s with stack := .function fid :: s.stack } a)
          [b, c]) ([b, c].length + 1) = .ok (s, [a, b, c])
    rw [push_shape_opN]
    have hmain := call_lua_func_multi_ok [a.ty, b.ty, c.ty] s fid f
      ((a :: [b, c]).map encodeVal) [encodeVal a, encodeVal b, encodeVal c] [a, b, c]
      hf (hecho _) hdec
    simpa using hmain

/-- Witness for C2: echoing `(true, 2, "hi")` returns it unchanged. -/
theorem argument_order_echo_witness :
    multi_opN [HostTy.tbool, HostTy.tint, HostTy.tstr] testState "echo"
        (.hbool true) [.hint 2, .hstr "hi"]
      = .ok (testState, [.hbool true, .hint 2, .hstr "hi"]) :=
  (argument_order_echo testState "echo" 0 echoFn (.hbool true) (.hint 2) (.hstr "hi")
    rfl rfl (fun _ => rfl) trivial (by constructor <;> norm_num) trivial).2

/-- C3: on the success path, every overload of every result-signature shape
leaves the shared stack at exactly the depth it had before the call. -/
theorem stack_balance_on_success (t : HostTy) (tys : List HostTy) (s : LuaState)
    (name : String) (a : HostVal) (as : List HostVal) :
    (∀ s2 v, single_op0 t s name = .ok (s2, v) → s2.stack = s.stack)
  ∧ (∀ s2 v, single_op1 t s name a = .ok (s2, v) → s2.stack = s.stack)
  ∧ (∀ s2 v, single_opN t s name a as = .ok (s2, v) → s2.stack = s.stack)
  ∧ (∀ s2 vs, multi_op0 tys s name = .ok (s2, vs) → s2.stack = s.stack)
  ∧ (∀ s2 vs, multi_op1 tys s name a = .ok (s2, vs) → s2.stack = s.stack)
  ∧ (∀ s2 vs, multi_opN tys s name a as = .ok (s2, vs) → s2.stack = s.stack)
  ∧ (∀ s2, void_op0 s name = .ok s2 → s2.stack = s.stack)
  ∧ (∀ s2, void_op1 s name a = .ok s2 → s2.stack = s.stack)
  ∧ (∀ s2, void_opN s name a as = .ok s2 → s2.stack = s.stack) := by
  refine ⟨?_, ?_, ?_, ?_, ?_, ?_, ?_, ?_, ?_⟩
  · intro s2 v h
    simp only [single_op0] at h
    obtain ⟨s1, hs1, hcall⟩ := bind_ok_elim h
    exact (call_single_stack t _ s2 v _ hcall).trans (op_stack_core s name s1 hs1 [])
  · intro s2 v h
    simp only [single_op1] at h
    obtain ⟨s1, hs1, hcall⟩ := bind_ok_elim h
    exact (call_single_stack t _ s2 v _ hcall).trans (op_stack_core s name s1 hs1 [a])
  · intro s2 v h
    simp only [single_opN] at h
    obtain ⟨s1, hs1, hcall⟩ := bind_ok_elim h
    exact (call_single_stack t _ s2 v _ hcall).trans (op_stack_core s name s1 hs1 (a :: as))
  · intro s2 vs h
    simp only [multi_op0] at h
    obtain ⟨s1, hs1, hcall⟩ := bind_ok_elim h
    exact (call_multi_stack tys _ s2 vs _ hcall).trans (op_stack_core s name s1 hs1 [])
  · intro s2 vs h
    simp only [multi_op1] at h
    obtain ⟨s1, hs1, hcall⟩ := bind_ok_elim h
    exact (call_multi_stack tys _ s2 vs _ hcall).trans (op_stack_core s name s1 hs1 [a])
  · intro s2 vs h
    simp only [multi_opN] at h
    obtain ⟨s1, hs1, hcall⟩ := bind_ok_elim h
    exact (call_multi_stack tys _ s2 vs _ hcall).trans (op_stack_core s name s1 hs1 (a :: as))
  · intro s2 h
    simp only [void_op0] at h
    obtain ⟨s1, hs1, hcall⟩ := bind_ok_elim h
    exact (call_void_stack _ s2 _ hcall).trans (op_stack_core s name s1 hs1 [])
  · intro s2 h
    simp only [void_op1] at h
    obtain ⟨s1, hs1, hcall⟩ := bind_ok_elim h
    exact (call_void_stack _ s2 _ hcall).trans (op_stack_core s name s1 hs1 [a])
  · intro s2 h
    simp only [void_opN] at h
    obtain ⟨s1, hs1, hcall⟩ := bind_ok_elim h
    exact (call_void_stack _ s2 _ hcall).trans (op_stack_core s name s1 hs1 (a :: as))

/-- Witness for C3: a two-argument void call of the `noop` callee returns the
stack (here empty) to its prior depth. -/
theorem stack_balance_on_success_witness :
    (⟨[], testState.globals, testState.funcs⟩ : LuaState).stack = testState.stack :=
  (stack_balance_on_success .tint [.tint, .tint] testState "noop"
      (.hint 1) [.hbool true]).2.2.2.2.2.2.2.2
    ⟨[], testState.globals, testState.funcs⟩ rfl

/-- C5: for the single-result shape, a successful invocation of any overload
pushes the resolved callee, encodes its arguments, performs the protected call
requesting exactly 1 result (the callee's results adjusted to one slot),
decodes that one slot from the top of the stack, pops it, and returns the
decoded value with the stack restored. -/
theorem single_result_call_protocol (t : HostTy) (s : LuaState) (name : String)
    (fid : Nat) (f : LuaFunc)
    (hg : s.globals.lookup name = some (.function fid))
    (hf : s.funcs.lookup fid = some f) :
    (∀ rs v, f [] = .ok rs →
        decode_slot t ((luaAdjust rs 1).headD .nil) = some v →
        single_op0 t s name = .ok (s, v))
  ∧ (∀ a rs v, f [encodeVal a] = .ok rs →
        decode_slot t ((luaAdjust rs 1).headD .nil) = some v →
        single_op1 t s name a = .ok (s, v))
  ∧ (∀ a as rs v, f ((a :: as).map encodeVal) = .ok rs →
        decode_slot t ((luaAdjust rs 1).headD .nil) = some v →
        single_opN t s name a as = .ok (s, v)) := by
  refine ⟨?_, ?_, ?_⟩
  · intro rs v hcall hdec
    simp only [single_op0]
    rw [get_global_push s name fid hg]
    exact call_lua_func_single_ok t s fid f [] rs v hf hcall hdec
  · intro a rs v hcall hdec
    simp only [single_op1]
    rw [get_global_push s name fid hg]
    show call_lua_func_single t
        (push_argument { s with stack := .function fid :: s.stack } a) 1 = .ok (s, v)
    rw [push_argument_eq]
    exact call_lua_func_single_ok t s fid f [encodeVal a] rs v hf hcall hdec
  · intro a as rs v hcall hdec
    simp only [single_opN]
    rw [get_global_push s name fid hg]
    show call_lua_func_single t
        (push_argument_list (push_argument { s with stack := .function fid :: s.stack } a) as)
        (as.length + 1) = .ok (s, v)
    rw [push_shape_opN]
    have hmain := call_lua_func_single_ok t s fid f ((a :: as).map encodeVal) rs v hf hcall hdec
    simpa using hmain

/-- Witness for C5: a single-result echo call returns the decoded top slot with
the stack restored. -/
theorem single_result_call_protocol_witness :
    single_op1 .tint testState "echo" (.hint 5) = .ok (testState, .hint 5) :=
  (single_result_call_protocol .tint testState "echo" 0 echoFn rfl rfl).2.1
    (.hint 5) [.intVal 5] (.hint 5) rfl (by decide)

/-- C8: in every result-signature shape, a nonzero status from the protected
call trips the fatal `assert(call_ret == 0)` (modelled as the `callFailed`
abort); when the status is 0 that assertion branch is unreachable. -/
theorem pcall_status_assertion (t : HostTy) (tys : List HostTy) (s : LuaState) (K : Nat) :
    ((lua_pcall s K 1).2 ≠ 0 → call_lua_func_single t s K = .error .callFailed)
  ∧ ((lua_pcall s K 1).2 = 0 → call_lua_func_single t s K ≠ .error .callFailed)
  ∧ ((lua_pcall s K tys.length).2 ≠ 0 → call_lua_func_multi tys s K = .error .callFailed)
  ∧ ((lua_pcall s K tys.length).2 = 0 → call_lua_func_multi tys s K ≠ .error .callFailed)
  ∧ ((lua_pcall s K 0).2 ≠ 0 → call_lua_func_void s K = .error .callFailed)
  ∧ ((lua_pcall s K 0).2 = 0 → call_lua_func_void s K ≠ .error .callFailed) := by
  refine ⟨?_, ?_, ?_, ?_, ?_, ?_⟩
  · intro h
    simp only [call_lua_func_single]
    rw [if_neg h]
  · intro h
    simp only [call_lua_func_single]
    rw [if_pos h]
    cases pop_argument (lua_pcall s K 1).1 t (-1) <;> simp
  · intro h
    simp only [call_lua_func_multi]
    rw [if_neg h]
  · intro h
    simp only [call_lua_func_multi]
    rw [if_pos h]
    cases pop_arguments (lua_pcall s K tys.length).1 tys (-(tys.length : Int)) <;> simp
  · intro h
    simp only [call_lua_func_void]
    rw [if_neg h]
  · intro h
    simp only [call_lua_func_void]
    rw [if_pos h]
    simp

/-- Witness for C8: the raising callee `boom` trips the call-failed abort; the
succeeding callee `noop` cannot. -/
theorem pcall_status_assertion_witness :
    call_lua_func_single .tint { testState with stack := [.function 2] } 0
      = .error .callFailed
  ∧ call_lua_func_void { testState with stack := [.function 1] } 0
      ≠ .error .callFailed :=
  ⟨(pcall_status_assertion .tint [] { testState with stack := [.function 2] } 0).1
      (by decide),
   (pcall_status_assertion .tint [] { testState with stack := [.function 1] } 0).2.2.2.2.2
      (by decide)⟩

end Lunatic
